import Mathlib

/-!
Verification of the SAMFormer repository (samformer_pytorch/samformer/samformer.py)
against its natural-language specification.

Tensors are modelled as nested lists of rationals: a `Vec` is one row, a `Mat`
is a matrix (list of rows), a `Tensor3` is a batch of matrices.  Machine floats
are modelled by exact rationals; every claim proved here concerns the algebraic
and structural behaviour of the code, which is float-tolerance-robust.

The repository's `utils` modules (`RevIN`, `SAM`, the fallback attention) are
referenced by `samformer.py` but their sources are not part of the provided
tree; where a claim depends on them they are modelled from the specification
text, and this is stated in the corresponding doc comment.
-/

namespace Samformer

abbrev Vec := List ℚ
abbrev Mat := List Vec
abbrev Tensor3 := List Mat

/-- Dot product of two rows (used by linear layers). -/
def dotProd (u v : Vec) : ℚ := (List.zipWith (fun a b => a * b) u v).sum

/-- A `torch.nn.Linear` layer: weight matrix (out_features rows, each of
in_features entries) and a bias vector of out_features entries. -/
structure Linear where
  weight : Mat
  bias : Vec
deriving DecidableEq, Repr

/-- Apply a linear layer to one vector along its last axis. -/
def Linear.applyVec (l : Linear) (v : Vec) : Vec :=
  List.zipWith (fun w b => dotProd w v + b) l.weight l.bias

/-- A linear layer applied to a matrix acts on every row (torch broadcasting
over the leading axes). -/
def Linear.applyMat (l : Linear) (m : Mat) : Mat := m.map l.applyVec

/-- A linear layer applied to a batched 3-D tensor acts on every row of every
sample. -/
def Linear.applyT3 (l : Linear) (t : Tensor3) : Tensor3 := t.map l.applyMat

/-- Column `j` of a matrix (entries missing on ragged rows default to 0; all
matrices handled by the claims are rectangular). -/
def column (m : Mat) (j : Nat) : Vec := m.map (fun row => row.getD j 0)

/-- `torch.Tensor.transpose(-2, -1)` on one rectangular matrix, written with
explicit indexing so that its shape behaviour is by construction. -/
def transposeM (m : Mat) : Mat :=
  (List.range (m.headD []).length).map (fun j => column m j)

/-- `x.transpose(1, 2)` on a batched tensor transposes every sample. -/
def t3transpose (t : Tensor3) : Tensor3 := t.map transposeM

/-- Entrywise sum of two matrices (the residual `x_norm + att_score`). -/
def matAdd (a b : Mat) : Mat := List.zipWith (List.zipWith (fun x y => x + y)) a b

/-- Mean of a list of rationals (0 on the empty list, as a total stand-in). -/
def listMean (v : Vec) : ℚ := v.sum / (v.length : ℚ)

/-- Population variance of a list of rationals. -/
def listVar (v : Vec) : ℚ := listMean (v.map (fun x => (x - listMean v) ^ 2))

/-- Modelled from the spec: the positive per-channel scale statistic that RevIN
stores at normalization time and reuses at denormalization time ("the mean and
standard deviation across the time axis, stores them").  The real RevIN uses
`sqrt(var + eps)`; square roots are irrational, so the model stores
`var + eps`, an exact positive rational scale.  Every claim proved about RevIN
is independent of the exact positive scale formula. -/
def scaleOf (eps : ℚ) (v : Vec) : ℚ := listVar v + eps

/-- Modelled from the spec: the state of the `RevIN` module (its source file is
not in the provided tree).  It holds the configured epsilon, the learned affine
weight and bias (one entry per channel), and the per-sample, per-channel
statistics stored by the most recent normalization call ("computed fresh on
every forward call in norm mode, consumed once by the paired denorm call"). -/
structure RevINMod where
  eps : ℚ
  affineWeight : Vec
  affineBias : Vec
  stats : List (List (ℚ × ℚ))
deriving DecidableEq, Repr

/-- One normalized entry: `(v - mean) / scale` scaled and shifted by the
learned affine parameters.  The parameter tuple is `((mean, scale), (w, b))`. -/
def normEntry (p : (ℚ × ℚ) × ℚ × ℚ) (v : ℚ) : ℚ :=
  (v - p.1.1) / p.1.2 * p.2.1 + p.2.2

/-- One denormalized entry: the inverse affine transform, multiplied back by
the stored scale, plus the stored mean. -/
def denormEntry (p : (ℚ × ℚ) × ℚ × ℚ) (v : ℚ) : ℚ :=
  (v - p.2.2) / p.2.1 * p.1.2 + p.1.1

/-- Per-channel parameter tuples: each channel's stored statistics paired with
its affine weight and bias. -/
def revinParams (rv : RevINMod) (stats : List (ℚ × ℚ)) :
    List ((ℚ × ℚ) × ℚ × ℚ) :=
  stats.zip (rv.affineWeight.zip rv.affineBias)

/-- Modelled from the spec: RevIN normalization of one sample presented in
`(length, channels)` layout (the layout the normalizer conventionally
expects).  Statistics are computed independently per channel across the time
axis and returned alongside the normalized sample. -/
def revinNormSample (rv : RevINMod) (m : Mat) : Mat × List (ℚ × ℚ) :=
  let stats := (List.range rv.affineWeight.length).map
    (fun j => (listMean (column m j), scaleOf rv.eps (column m j)))
  (m.map (fun row => List.zipWith (fun v p => normEntry p v) row (revinParams rv stats)),
   stats)

/-- Modelled from the spec: RevIN denormalization of one sample in
`(length, channels)` layout, using the per-channel statistics stored by the
paired normalization call. -/
def revinDenormSample (rv : RevINMod) (stats : List (ℚ × ℚ)) (m : Mat) : Mat :=
  m.map (fun row => List.zipWith (fun v p => denormEntry p v) row (revinParams rv stats))

/-- Modelled from the spec: `revin(x, mode='norm')` on a batch in
`(batch, length, channels)` layout.  It returns the normalized batch together
with the updated module, whose `stats` field now stores this batch's
per-sample statistics (the module mutation the spec describes as "stores
them"). -/
def revinNormBatch (rv : RevINMod) (x : Tensor3) : Tensor3 × RevINMod :=
  let rs := x.map (revinNormSample rv)
  (rs.map Prod.fst, { rv with stats := rs.map Prod.snd })

/-- Modelled from the spec: `revin(y, mode='denorm')` on a batch, consuming the
statistics stored by the most recent normalization call. -/
def revinDenormBatch (rv : RevINMod) (y : Tensor3) : Tensor3 :=
  List.zipWith (fun st m => revinDenormSample rv st m) rv.stats y

lemma listVar_nonneg (v : Vec) : 0 ≤ listVar v := by
  unfold listVar listMean
  apply div_nonneg
  · apply List.sum_nonneg
    intro x hx
    obtain ⟨y, _, rfl⟩ := List.mem_map.mp hx
    positivity
  · positivity

lemma scaleOf_pos (eps : ℚ) (v : Vec) (h : 0 < eps) : 0 < scaleOf eps v := by
  have := listVar_nonneg v
  unfold scaleOf
  linarith

lemma norm_denorm_entry (p : (ℚ × ℚ) × ℚ × ℚ) (v : ℚ)
    (hs : p.1.2 ≠ 0) (hw : p.2.1 ≠ 0) :
    denormEntry p (normEntry p v) = v := by
  unfold normEntry denormEntry
  field_simp
  ring

lemma roundtrip_row (ps : List ((ℚ × ℚ) × ℚ × ℚ)) (row : Vec)
    (hlen : row.length ≤ ps.length)
    (hok : ∀ p ∈ ps, p.1.2 ≠ 0 ∧ p.2.1 ≠ 0) :
    List.zipWith (fun v p => denormEntry p v)
      (List.zipWith (fun v p => normEntry p v) row ps) ps = row := by
  induction row generalizing ps with
  | nil => simp
  | cons a t ih =>
    cases ps with
    | nil => simp at hlen
    | cons p pt =>
      simp only [List.zipWith_cons_cons, List.cons.injEq]
      constructor
      · exact norm_denorm_entry p a (hok p (by simp)).1 (hok p (by simp)).2
      · exact ih pt (by simpa using hlen) (fun q hq => hok q (by simp [hq]))

lemma map_id_of_mem {α : Type} (l : List α) (f : α → α) (h : ∀ x ∈ l, f x = x) :
    l.map f = l := by
  induction l with
  | nil => rfl
  | cons a t ih =>
    simp only [List.map_cons, h a (by simp), List.cons.injEq, true_and]
    exact ih (fun x hx => h x (by simp [hx]))

lemma roundtrip_sample (rv : RevINMod) (m : Mat)
    (heps : 0 < rv.eps)
    (hw : ∀ g ∈ rv.affineWeight, g ≠ 0)
    (hb : rv.affineBias.length = rv.affineWeight.length)
    (hm : ∀ row ∈ m, row.length = rv.affineWeight.length) :
    revinDenormSample rv (revinNormSample rv m).2 (revinNormSample rv m).1 = m := by
  unfold revinNormSample revinDenormSample
  simp only [List.map_map]
  have hplen : (revinParams rv ((List.range rv.affineWeight.length).map
      (fun j => (listMean (column m j), scaleOf rv.eps (column m j))))).length
      = rv.affineWeight.length := by
    simp [revinParams, hb]
  have hpok : ∀ p ∈ revinParams rv ((List.range rv.affineWeight.length).map
      (fun j => (listMean (column m j), scaleOf rv.eps (column m j)))),
      p.1.2 ≠ 0 ∧ p.2.1 ≠ 0 := by
    intro p hp
    unfold revinParams at hp
    have h1 := (List.of_mem_zip hp).1
    have h2 := (List.of_mem_zip hp).2
    constructor
    · obtain ⟨j, _, hj⟩ := List.mem_map.mp h1
      have : p.1.2 = scaleOf rv.eps (column m j) := by rw [← hj]
      rw [this]
      exact ne_of_gt (scaleOf_pos rv.eps (column m j) heps)
    · exact hw p.2.1 (List.of_mem_zip h2).1
  apply map_id_of_mem
  intro row hrow
  simp only [Function.comp]
  exact roundtrip_row _ row (by rw [hplen, hm row hrow]) hpok

/-- The fields of `SAMFormerArchitecture` (samformer.py lines 18-26): the
RevIN module, the three attention projections, the linear forecaster, the
`use_revin` flag, and the `training` flag inherited from `nn.Module`. -/
structure Network where
  revin : RevINMod
  compute_keys : Linear
  compute_queries : Linear
  compute_values : Linear
  linear_forecaster : Linear
  use_revin : Bool
  training : Bool
deriving DecidableEq, Repr

/-- The value returned by `forward`: a flattened 2-D tensor when
`flatten_output` is true, the 3-D tensor otherwise. -/
inductive TOut
  | flat (m : Mat)
  | cube (t : Tensor3)
deriving DecidableEq, Repr

/-- Apply a per-sample attention kernel across three equally-batched tensors
(the batched behaviour of `scaled_dot_product_attention`, which acts
independently on each sample of the batch). -/
def zipWith3Samples (f : Mat → Mat → Mat → Mat) :
    Tensor3 → Tensor3 → Tensor3 → Tensor3
  | q :: qs, k :: ks, v :: vs => f q k v :: zipWith3Samples f qs ks vs
  | _, _, _ => []

/-- `SAMFormerArchitecture.forward` (lines 28-47) before the final
flatten branch: RevIN normalization through the transpose pattern, the
query/key/value projections, attention, the residual add, the linear
forecaster, and RevIN denormalization through the same transpose pattern.
The attention kernel is a parameter: both the fused
`nn.functional.scaled_dot_product_attention` and the repository's fallback
are external to the provided source, and every claim about `forward` holds
for an arbitrary per-sample kernel.  The second component is the module
after the call: RevIN's norm mode stores this batch's statistics. -/
def Network.forwardState (net : Network) (attnS : Mat → Mat → Mat → Mat)
    (x : Tensor3) : Tensor3 × Network :=
  let pr :=
    if net.use_revin then
      let p := revinNormBatch net.revin (t3transpose x)
      (t3transpose p.1, { net with revin := p.2 })
    else (x, net)
  let x_norm := pr.1
  let queries := net.compute_queries.applyT3 x_norm
  let keys := net.compute_keys.applyT3 x_norm
  let values := net.compute_values.applyT3 x_norm
  let att_score := zipWith3Samples attnS queries keys values
  let out := List.zipWith matAdd x_norm att_score
  let out2 := net.linear_forecaster.applyT3 out
  let out3 :=
    if net.use_revin then t3transpose (revinDenormBatch pr.2.revin (t3transpose out2))
    else out2
  (out3, pr.2)

/-- `SAMFormerArchitecture.forward` (lines 28-51): the pipeline above followed
by the `flatten_output` branch, which either reshapes each sample's
`(channels, horizon)` block into one row or returns the 3-D tensor. -/
def Network.forward (net : Network) (attnS : Mat → Mat → Mat → Mat)
    (x : Tensor3) (flatten_output : Bool) : TOut × Network :=
  let p := net.forwardState attnS x
  (if flatten_output then TOut.flat (p.1.map List.flatten) else TOut.cube p.1, p.2)

/-- The value `forward` computes for one sample of the batch, written as a
per-sample function (all stages of `forward` act independently per sample). -/
def Network.sampleForward (net : Network) (attnS : Mat → Mat → Mat → Mat)
    (m : Mat) : Mat :=
  let pr :=
    if net.use_revin then
      let p := revinNormSample net.revin (transposeM m)
      (transposeM p.1, p.2)
    else (m, [])
  let x_norm := pr.1
  let q := net.compute_queries.applyMat x_norm
  let k := net.compute_keys.applyMat x_norm
  let v := net.compute_values.applyMat x_norm
  let att := attnS q k v
  let out := matAdd x_norm att
  let out2 := net.linear_forecaster.applyMat out
  if net.use_revin then transposeM (revinDenormSample net.revin pr.2 (transposeM out2))
  else out2

lemma zipWith_map_same {α β γ δ : Type} (f : β → γ → δ) (a : α → β) (b : α → γ)
    (l : List α) :
    List.zipWith f (l.map a) (l.map b) = l.map (fun x => f (a x) (b x)) := by
  induction l with
  | nil => rfl
  | cons h t ih => simp [ih]

lemma zipWith_self_map {α β γ : Type} (f : α → β → γ) (g : α → β) (l : List α) :
    List.zipWith f l (l.map g) = l.map (fun a => f a (g a)) := by
  induction l with
  | nil => rfl
  | cons h t ih => simp [ih]

lemma map_congr_fun {α β : Type} (l : List α) (f g : α → β) (h : ∀ a, f a = g a) :
    l.map f = l.map g := by
  induction l with
  | nil => rfl
  | cons x t ih => simp [h x, ih]

lemma zipWith3Samples_map_same (f : Mat → Mat → Mat → Mat)
    (a b c : Mat → Mat) (l : Tensor3) :
    zipWith3Samples f (l.map a) (l.map b) (l.map c)
      = l.map (fun x => f (a x) (b x) (c x)) := by
  induction l with
  | nil => rfl
  | cons h t ih => simp [zipWith3Samples, ih]

/-- The first component of `forwardState` is the per-sample pipeline mapped
over the batch. -/
lemma forwardState_fst (net : Network) (attnS : Mat → Mat → Mat → Mat)
    (x : Tensor3) :
    (net.forwardState attnS x).1 = x.map (net.sampleForward attnS) := by
  cases hr : net.use_revin with
  | false =>
    simp only [Network.forwardState, hr, Bool.false_eq_true, if_false,
      Linear.applyT3, zipWith3Samples_map_same, List.map_map, Function.comp_def]
    rw [zipWith_self_map]
    simp only [List.map_map, Function.comp_def]
    apply map_congr_fun
    intro m
    simp [Network.sampleForward, hr]
  | true =>
    simp only [Network.forwardState, hr, if_true, Linear.applyT3, t3transpose,
      revinNormBatch, revinDenormBatch, List.map_map, Function.comp_def,
      zipWith_map_same, zipWith3Samples_map_same]
    apply map_congr_fun
    intro m
    simp [Network.sampleForward, hr, revinDenormSample, revinParams]

/-- The module state returned by `forwardState`: with RevIN enabled the stored
statistics are replaced by this batch's statistics, otherwise the module is
returned unchanged. -/
lemma forwardState_snd (net : Network) (attnS : Mat → Mat → Mat → Mat)
    (x : Tensor3) :
    (net.forwardState attnS x).2 =
      if net.use_revin then
        { net with revin := { net.revin with
            stats := x.map (fun m => (revinNormSample net.revin (transposeM m)).2) } }
      else net := by
  cases hr : net.use_revin with
  | false => simp [Network.forwardState, hr]
  | true =>
    simp [Network.forwardState, hr, revinNormBatch, t3transpose, List.map_map,
      Function.comp_def]

/-- The per-sample pipeline never reads the stored RevIN statistics. -/
lemma sampleForward_stats (net : Network) (attnS : Mat → Mat → Mat → Mat)
    (s : List (List (ℚ × ℚ))) (m : Mat) :
    Network.sampleForward
      { net with revin := { net.revin with stats := s } } attnS m
      = net.sampleForward attnS m := rfl

/-- A rectangular matrix with `r` rows, each of `c` entries. -/
abbrev RectM (r c : Nat) (m : Mat) : Prop :=
  m.length = r ∧ ∀ row ∈ m, row.length = c

/-- A batch of `n` rectangular `r × c` matrices. -/
abbrev RectT3 (n r c : Nat) (t : Tensor3) : Prop :=
  t.length = n ∧ ∀ m ∈ t, RectM r c m

lemma transposeM_rect {r c : Nat} {m : Mat} (h : RectM r c m) (hr : 0 < r) :
    RectM c r (transposeM m) := by
  obtain ⟨hlen, hrow⟩ := h
  constructor
  · cases m with
    | nil => simp at hlen; omega
    | cons a t => simp [transposeM, hrow a (by simp)]
  · intro row hmem
    simp only [transposeM, List.mem_map] at hmem
    obtain ⟨j, _, rfl⟩ := hmem
    simp [column, hlen]

lemma applyMat_rect {r c o : Nat} (l : Linear) (m : Mat)
    (hw : l.weight.length = o) (hb : l.bias.length = o) (h : RectM r c m) :
    RectM r o (l.applyMat m) := by
  constructor
  · simp [Linear.applyMat, h.1]
  · intro row hrow
    simp only [Linear.applyMat, List.mem_map] at hrow
    obtain ⟨v, _, rfl⟩ := hrow
    simp [Linear.applyVec, hw, hb]

lemma revinParams_length (rv : RevINMod) (st : List (ℚ × ℚ))
    (hst : st.length = rv.affineWeight.length)
    (hb : rv.affineBias.length = rv.affineWeight.length) :
    (revinParams rv st).length = rv.affineWeight.length := by
  simp [revinParams, hst, hb]

lemma revinNormSample_stats_length (rv : RevINMod) (m : Mat) :
    (revinNormSample rv m).2.length = rv.affineWeight.length := by
  simp [revinNormSample]

lemma revinNormSample_rect (rv : RevINMod) {r : Nat} (m : Mat)
    (hb : rv.affineBias.length = rv.affineWeight.length)
    (h : RectM r rv.affineWeight.length m) :
    RectM r rv.affineWeight.length (revinNormSample rv m).1 := by
  constructor
  · simp [revinNormSample, h.1]
  · intro row hrow
    simp only [revinNormSample, List.mem_map] at hrow
    obtain ⟨v, hv, rfl⟩ := hrow
    simp [revinParams, hb, h.2 v hv]

lemma revinDenormSample_rect (rv : RevINMod) {r : Nat} (st : List (ℚ × ℚ))
    (m : Mat) (hst : st.length = rv.affineWeight.length)
    (hb : rv.affineBias.length = rv.affineWeight.length)
    (h : RectM r rv.affineWeight.length m) :
    RectM r rv.affineWeight.length (revinDenormSample rv st m) := by
  constructor
  · simp [revinDenormSample, h.1]
  · intro row hrow
    simp only [revinDenormSample, List.mem_map] at hrow
    obtain ⟨v, hv, rfl⟩ := hrow
    simp [revinParams, hst, hb, h.2 v hv]

lemma zipWith_rect_mem {α β γ : Type} (f : α → β → γ) (P : α → Prop)
    (Q : β → Prop) (R : γ → Prop) (hf : ∀ x y, P x → Q y → R (f x y)) :
    ∀ (a : List α) (b : List β), (∀ x ∈ a, P x) → (∀ y ∈ b, Q y) →
      ∀ z ∈ List.zipWith f a b, R z := by
  intro a
  induction a with
  | nil => intro b _ _ z hz; simp at hz
  | cons x t ih =>
    intro b hp hq z hz
    cases b with
    | nil => simp at hz
    | cons y s =>
      simp only [List.zipWith_cons_cons, List.mem_cons] at hz
      rcases hz with rfl | hz
      · exact hf x y (hp x (by simp)) (hq y (by simp))
      · exact ih s (fun u hu => hp u (by simp [hu]))
          (fun u hu => hq u (by simp [hu])) z hz

lemma matAdd_rect {r c : Nat} (a b : Mat) (ha : RectM r c a) (hb : RectM r c b) :
    RectM r c (matAdd a b) := by
  constructor
  · simp [matAdd, ha.1, hb.1]
  · intro row hrow
    refine zipWith_rect_mem (List.zipWith (fun x y => x + y))
      (fun v => v.length = c) (fun v => v.length = c) (fun v => v.length = c)
      ?_ a b ha.2 hb.2 row hrow
    intro x y hx hy
    simp [hx, hy]

lemma flatten_length_rect {r c : Nat} (m : Mat) (h : RectM r c m) :
    m.flatten.length = r * c := by
  induction m generalizing r with
  | nil =>
    have := h.1
    simp at this
    simp [← this]
  | cons row t ih =>
    obtain ⟨h1, h2⟩ := h
    cases r with
    | zero => simp at h1
    | succ k =>
      have ht : RectM k c t :=
        ⟨by simpa using h1, fun u hu => h2 u (by simp [hu])⟩
      simp only [List.flatten_cons, List.length_append, h2 row (by simp), ih ht]
      ring

/-- Shape of the per-sample forward pipeline: a rectangular
`(channels, seq_len)` sample maps to a rectangular `(channels, horizon)`
sample, for any attention kernel with the attention block's contracted
shape behaviour. -/
lemma sampleForward_rect (net : Network) (attnS : Mat → Mat → Mat → Mat)
    {D L H hid : Nat} (m : Mat)
    (hD : 0 < D) (hL : 0 < L) (hH : 0 < H)
    (hqw : net.compute_queries.weight.length = hid)
    (hqb : net.compute_queries.bias.length = hid)
    (hkw : net.compute_keys.weight.length = hid)
    (hkb : net.compute_keys.bias.length = hid)
    (hvw : net.compute_values.weight.length = L)
    (hvb : net.compute_values.bias.length = L)
    (hfw : net.linear_forecaster.weight.length = H)
    (hfb : net.linear_forecaster.bias.length = H)
    (haw : net.revin.affineWeight.length = D)
    (hab : net.revin.affineBias.length = D)
    (hattn : ∀ q k v, RectM D hid q → RectM D hid k → RectM D L v →
      RectM D L (attnS q k v))
    (hm : RectM D L m) :
    RectM D H (net.sampleForward attnS m) := by
  have hb' : net.revin.affineBias.length = net.revin.affineWeight.length := by
    omega
  have core : ∀ xn : Mat, RectM D L xn →
      RectM D H (net.linear_forecaster.applyMat
        (matAdd xn (attnS (net.compute_queries.applyMat xn)
          (net.compute_keys.applyMat xn) (net.compute_values.applyMat xn)))) := by
    intro xn hxn
    have hq := applyMat_rect net.compute_queries xn hqw hqb hxn
    have hk := applyMat_rect net.compute_keys xn hkw hkb hxn
    have hv := applyMat_rect net.compute_values xn hvw hvb hxn
    have hatt := hattn _ _ _ hq hk hv
    exact applyMat_rect net.linear_forecaster _ hfw hfb (matAdd_rect _ _ hxn hatt)
  cases hr : net.use_revin with
  | false =>
    simp only [Network.sampleForward, hr, Bool.false_eq_true, if_false]
    exact core m hm
  | true =>
    simp only [Network.sampleForward, hr, if_true]
    set xn := transposeM (revinNormSample net.revin (transposeM m)).1 with hxn
    set o2 := net.linear_forecaster.applyMat (matAdd xn
      (attnS (net.compute_queries.applyMat xn) (net.compute_keys.applyMat xn)
        (net.compute_values.applyMat xn))) with ho2
    have h1 : RectM L D (transposeM m) := transposeM_rect hm hD
    have h1' : RectM L net.revin.affineWeight.length (transposeM m) := by
      rw [haw]; exact h1
    have h2 := revinNormSample_rect net.revin (transposeM m) hb' h1'
    have h2' : RectM L D (revinNormSample net.revin (transposeM m)).1 := by
      rw [← haw]; exact h2
    have h3 : RectM D L xn := transposeM_rect h2' hL
    have h4 : RectM D H o2 := core xn h3
    have h5 : RectM H D (transposeM o2) := transposeM_rect h4 hD
    have h5' : RectM H net.revin.affineWeight.length (transposeM o2) := by
      rw [haw]; exact h5
    have h6 := revinDenormSample_rect net.revin
      (revinNormSample net.revin (transposeM m)).2 (transposeM o2)
      (revinNormSample_stats_length net.revin (transposeM m)) hb' h5'
    have h6' : RectM H D (revinDenormSample net.revin
        (revinNormSample net.revin (transposeM m)).2 (transposeM o2)) := by
      rw [← haw]; exact h6
    exact transposeM_rect h6' hH

/-- Modelled from the spec, section 4.4 step 1: normalize the input along the
time axis, with an axis transpose before and after the normalizer call; with
normalization disabled the input and module pass through unchanged. -/
def normalizeStep (net : Network) (x : Tensor3) : Tensor3 × Network :=
  if net.use_revin then
    let p := revinNormBatch net.revin (t3transpose x)
    (t3transpose p.1, { net with revin := p.2 })
  else (x, net)

/-- Modelled from the spec, section 4.2: the attention block: query, key and
value projections of the normalized input followed by the attention kernel. -/
def attentionBlock (net : Network) (attnS : Mat → Mat → Mat → Mat)
    (x_norm : Tensor3) : Tensor3 :=
  zipWith3Samples attnS (net.compute_queries.applyT3 x_norm)
    (net.compute_keys.applyT3 x_norm) (net.compute_values.applyT3 x_norm)

/-- Modelled from the spec, section 4.3: the linear forecast head. -/
def forecastHead (net : Network) (t : Tensor3) : Tensor3 :=
  net.linear_forecaster.applyT3 t

/-- Modelled from the spec, section 4.4 step 5: denormalize using the
statistics captured in step 1, again via the transpose pattern. -/
def denormalizeStep (net' : Network) (t : Tensor3) : Tensor3 :=
  if net'.use_revin then t3transpose (revinDenormBatch net'.revin (t3transpose t))
  else t

/-- Modelled from the spec, section 4.4: the forward contract as the spec
enumerates it: normalize, attention block, residual add, forecast head,
denormalize, optional flatten. -/
def forwardSpec (net : Network) (attnS : Mat → Mat → Mat → Mat)
    (x : Tensor3) (flatten_output : Bool) : TOut × Network :=
  let p := normalizeStep net x
  let res := List.zipWith matAdd p.1 (attentionBlock net attnS p.1)
  let out := denormalizeStep p.2 (forecastHead net res)
  (if flatten_output then TOut.flat (out.map List.flatten) else TOut.cube out, p.2)

lemma forward_eq_forwardSpec (net : Network) (attnS : Mat → Mat → Mat → Mat)
    (x : Tensor3) (b : Bool) :
    net.forward attnS x b = forwardSpec net attnS x b := by
  cases hr : net.use_revin with
  | false =>
    simp [Network.forward, Network.forwardState, forwardSpec, normalizeStep,
      attentionBlock, forecastHead, denormalizeStep, hr]
  | true =>
    simp [Network.forward, Network.forwardState, forwardSpec, normalizeStep,
      attentionBlock, forecastHead, denormalizeStep, hr]

/-- Python-level failures relevant to the claims: `attributeError` models the
exception raised by attribute access on `None`; `preconditionError` models an
explicit guard raised before any model access, which is the failure mode the
spec prescribes (the source contains no such guard). -/
inductive PyError
  | attributeError (msg : String)
  | preconditionError (msg : String)
deriving DecidableEq, Repr

/-- Whether a fallible result failed with an explicit precondition error. -/
def returnsPreconditionError {α : Type} : Except PyError α → Bool
  | Except.error (PyError.preconditionError _) => true
  | _ => false

/-- The fields of the `SAMFormer` trainer (lines 58-70).  The constructor
stores only hyperparameters; `network` starts as `None` and is populated by
`fit`.  `base_optimizer` is the runtime class name of the configured base
optimizer (`torch.optim.Adam` by default). -/
structure SAMFormerState where
  network : Option Network
  criterion : String
  device : String
  num_epochs : Nat
  batch_size : Nat
  base_optimizer : String
  learning_rate : ℚ
  weight_decay : ℚ
  rho : ℚ
  use_revin : Bool
  random_state : Option Nat
deriving DecidableEq, Repr

/-- `SAMFormer.__init__` (lines 58-70): `self.network = None`, an MSE
criterion, and the configured hyperparameters. -/
def samformerInit (device : String) (num_epochs batch_size : Nat)
    (base_optimizer : String) (learning_rate weight_decay rho : ℚ)
    (use_revin : Bool) (random_state : Option Nat) : SAMFormerState :=
  { network := none, criterion := "MSELoss", device := device,
    num_epochs := num_epochs, batch_size := batch_size,
    base_optimizer := base_optimizer, learning_rate := learning_rate,
    weight_decay := weight_decay, rho := rho, use_revin := use_revin,
    random_state := random_state }

/-- `DataLoader(dataset, batch_size, shuffle=False)`: split the samples into
consecutive batches of `bs` samples (last batch possibly shorter), preserving
order. -/
def chunkList {α : Type} (bs : Nat) : List α → List (List α)
  | [] => []
  | x :: xs => (x :: xs.take (bs - 1)) :: chunkList bs (xs.drop (bs - 1))
termination_by l => l.length
decreasing_by simp [List.length_drop]; omega

lemma chunkList_flatten_aux {α : Type} (bs : Nat) :
    ∀ n (l : List α), l.length = n → (chunkList bs l).flatten = l := by
  intro n
  induction n using Nat.strong_induction_on with
  | _ n ih =>
    intro l hn
    cases l with
    | nil => simp [chunkList]
    | cons x xs =>
      simp only [chunkList, List.flatten_cons, List.cons_append]
      rw [ih (xs.drop (bs - 1)).length (by subst hn; simp; omega) _ rfl,
        List.take_append_drop]

lemma chunkList_flatten {α : Type} (bs : Nat) (l : List α) :
    (chunkList bs l).flatten = l :=
  chunkList_flatten_aux bs l.length l rfl

/-- Extract the flattened matrix from a `forward` result (with
`flatten_output = true` the result is always the `flat` form). -/
def TOut.toFlat : TOut → Mat
  | TOut.flat m => m
  | TOut.cube t => t.map List.flatten

/-- The loop body of `forecast` (lines 126-130): run `forward` on each batch
in order under `torch.no_grad()`, threading the module state, and collect the
per-batch outputs. -/
def runBatches (attnS : Mat → Mat → Mat → Mat) :
    Network → List Tensor3 → List Mat × Network
  | net, [] => ([], net)
  | net, b :: bs =>
    let p := net.forward attnS b true
    let rest := runBatches attnS p.2 bs
    (p.1.toFlat :: rest.1, rest.2)

/-- `SAMFormer.forecast` (lines 121-132): set the model to evaluation mode,
batch the input without shuffling, run `forward` per batch with gradient
tracking disabled, concatenate the per-batch outputs in order and return the
array.  On a never-fit instance `self.network` is `None`, so the very first
statement `self.network.eval()` raises `AttributeError`. -/
def SAMFormer.forecast (st : SAMFormerState) (attnS : Mat → Mat → Mat → Mat)
    (x : Tensor3) (batch_size : Nat) :
    Except PyError (Mat × SAMFormerState) :=
  match st.network with
  | none => Except.error (PyError.attributeError
      "NoneType object has no attribute eval")
  | some net0 =>
    let net1 := { net0 with training := false }
    let p := runBatches attnS net1 (chunkList batch_size x)
    Except.ok (p.1.flatten, { st with network := some p.2 })

/-- `SAMFormer.predict` (lines 134-135): delegates to `forecast` with the
same arguments. -/
def SAMFormer.predict (st : SAMFormerState) (attnS : Mat → Mat → Mat → Mat)
    (x : Tensor3) (batch_size : Nat) :
    Except PyError (Mat × SAMFormerState) :=
  SAMFormer.forecast st attnS x batch_size

/-- Shape of the input array passed to `fit`: (samples, channels, seq_len). -/
structure XShape where
  samples : Nat
  channels : Nat
  seq_len : Nat
deriving DecidableEq, Repr

/-- Shape of the target array passed to `fit`: (samples, width). -/
structure YShape where
  samples : Nat
  width : Nat
deriving DecidableEq, Repr

/-- The constructor arguments of `SAMFormerArchitecture` chosen by `fit`
(lines 79-80). -/
structure NetworkDims where
  num_channels : Nat
  seq_len : Nat
  hid_dim : Nat
  pred_horizon : Nat
  use_revin : Bool
deriving DecidableEq, Repr

/-- `SAMFormer.fit`, lines 79-80: the model is allocated directly with
dimensions read off the data: `num_channels = x.shape[1]`,
`seq_len = x.shape[2]`, `hid_dim = 16`,
`pred_horizon = y.shape[1] // x.shape[1]` (integer floor division) and
`use_revin = self.use_revin`. -/
def fitAllocate (st : SAMFormerState) (xs : XShape) (ys : YShape) :
    NetworkDims :=
  { num_channels := xs.channels, seq_len := xs.seq_len, hid_dim := 16,
    pred_horizon := ys.width / xs.channels, use_revin := st.use_revin }

/-- The pre-training phase of `fit` (lines 72-80) as a fallible computation:
it can only succeed, because the source performs no shape-consistency check
of any kind before allocating the model parameters. -/
def fitPre (st : SAMFormerState) (xs : XShape) (ys : YShape) :
    Except PyError NetworkDims :=
  Except.ok (fitAllocate st xs ys)

/-- The externally visible calls `fit` makes while processing one batch
(lines 97-114); device moves and loss logging are thin I/O outside the spec's
core. -/
inductive TrainEvent
  | forwardPass
  | computeLoss
  | backwardPass
  | firstStep (zero_grad : Bool)
  | secondStep (zero_grad : Bool)
  | zeroGradCall
  | optimizerStep
deriving DecidableEq, Repr

/-- The runtime identity of an optimizer object: its class name and the class
name of the base optimizer it wraps. -/
structure OptimizerId where
  className : String
  baseClassName : String
deriving DecidableEq, Repr

/-- Modelled from the spec: constructing `SAM(params, base_optimizer=...)`
(the `SAM` source is not in the provided tree) yields an optimizer object of
runtime class `SAM` wrapping the given base optimizer. -/
def samWrap (base : String) : OptimizerId :=
  { className := "SAM", baseClassName := base }

/-- Line 85: `fit` always constructs a SAM optimizer wrapping the configured
base optimizer, whatever that base optimizer is. -/
def fitOptimizer (st : SAMFormerState) : OptimizerId := samWrap st.base_optimizer

/-- Lines 97-114: per-batch processing: forward and loss first, then the
branch on `optimizer.__class__.__name__ == 'SAM'`: either the two-phase SAM
sequence or the plain sequence. -/
def processBatchEvents (opt : OptimizerId) : List TrainEvent :=
  [TrainEvent.forwardPass, TrainEvent.computeLoss] ++
  (if opt.className = "SAM" then
    [TrainEvent.backwardPass, TrainEvent.firstStep true, TrainEvent.forwardPass,
     TrainEvent.computeLoss, TrainEvent.backwardPass, TrainEvent.secondStep true]
  else
    [TrainEvent.zeroGradCall, TrainEvent.backwardPass, TrainEvent.optimizerStep])

/-- The per-batch event sequence `fit` actually executes for a given trainer
configuration: the dispatch applied to the optimizer `fit` constructed. -/
def fitBatchEvents (st : SAMFormerState) : List TrainEvent :=
  processBatchEvents (fitOptimizer st)

/-- Modelled from the spec: the four global random number generator states
that `fit` seeds (torch, python `random`, numpy, torch.cuda); their internal
algorithms are external libraries, abstracted here as natural-number
states. -/
structure RNGState where
  torchState : Nat
  pythonState : Nat
  numpyState : Nat
  cudaState : Nat
deriving DecidableEq, Repr

/-- Lines 73-77: `torch.manual_seed`, `random.seed`, `np.random.seed` and
`torch.cuda.manual_seed_all`, all called with the configured seed. -/
def seedAll (s : Nat) : RNGState :=
  { torchState := s, pythonState := s, numpyState := s, cudaState := s }

/-- Modelled from the spec: a deterministic stand-in generator step (a linear
congruential step); the claims proved depend only on its determinism, not on
the library's actual update function. -/
def rngNext (n : Nat) : Nat :=
  (6364136223846793005 * n + 1442695040888963407) % (2 ^ 64)

/-- Draw `k` values from a generator state, returning them and the final
state. -/
def drawMany : Nat → Nat → List Nat × Nat
  | 0, st => ([], st)
  | k + 1, st =>
    let p := drawMany k (rngNext st)
    (rngNext st :: p.1, p.2)

/-- All randomness one run of `fit` consumes: the draws that initialize the
model parameters and, for each epoch, the draw that shuffles the training
data. -/
structure FitRandomness where
  initDraws : List Nat
  shuffleDraws : List Nat
deriving DecidableEq, Repr

/-- Modelled from the spec together with lines 72-92 of the source: the random
draws consumed by one run of `fit`.  When `random_state` is set, every
generator is first reseeded from it (lines 73-77).  Model initialization then
consumes one draw per allocated parameter tensor (four weight/bias pairs plus
the normalizer's affine pair) and each of the configured epochs consumes one
shuffle draw (`DataLoader(..., shuffle=True)` draws from the torch global
generator).  The rest of `fit` is a deterministic function of the data and of
these draws. -/
def fitRandomness (st : SAMFormerState) (r0 : RNGState) :
    FitRandomness × RNGState :=
  let r := match st.random_state with
    | some s => seedAll s
    | none => r0
  let p1 := drawMany 10 r.torchState
  let p2 := drawMany st.num_epochs p1.2
  (⟨p1.1, p2.1⟩, { r with torchState := p2.2 })

/-- A one-input, one-output linear layer, used by the concrete witnesses. -/
def lin1 : Linear := { weight := [[1]], bias := [0] }

/-- A one-channel, length-one, horizon-one network used by the concrete
witnesses and counterexamples. -/
def net0 : Network :=
  { revin := { eps := 1/100000, affineWeight := [1], affineBias := [0], stats := [] },
    compute_keys := lin1, compute_queries := lin1, compute_values := lin1,
    linear_forecaster := lin1, use_revin := true, training := true }

/-- The witness network with normalization disabled. -/
def net0f : Network := { net0 with use_revin := false }

/-- A trainer state built with the source's default construction arguments. -/
def st0 : SAMFormerState :=
  samformerInit "cuda:0" 100 256 "Adam" (1/1000) (1/100000) (1/2) true none

/-- The identity-on-values attention kernel used by the witnesses (any
shape-correct kernel works in the theorems). -/
def valAttention : Mat → Mat → Mat → Mat := fun _ _ v => v

/-- Claim C1: in SAM mode the trainer processes every batch by executing
exactly: forward pass, loss computation, backward pass, ascent step
(`first_step`) with gradient zeroing, a second forward pass at the perturbed
parameters, loss recomputation, a second backward pass, then descent step
(`second_step`) with gradient zeroing.  The event list models sequential
execution, so the zeroing ascent step is fully applied strictly before the
second forward pass begins. -/
theorem sam_mode_batch_sequence (opt : OptimizerId)
    (h : opt.className = "SAM") :
    processBatchEvents opt =
      [TrainEvent.forwardPass, TrainEvent.computeLoss, TrainEvent.backwardPass,
       TrainEvent.firstStep true, TrainEvent.forwardPass, TrainEvent.computeLoss,
       TrainEvent.backwardPass, TrainEvent.secondStep true] := by
  simp [processBatchEvents, h]

theorem sam_mode_batch_sequence_witness :
    (samWrap "Adam").className = "SAM" ∧
    processBatchEvents (samWrap "Adam") =
      [TrainEvent.forwardPass, TrainEvent.computeLoss, TrainEvent.backwardPass,
       TrainEvent.firstStep true, TrainEvent.forwardPass, TrainEvent.computeLoss,
       TrainEvent.backwardPass, TrainEvent.secondStep true] :=
  ⟨rfl, sam_mode_batch_sequence (samWrap "Adam") rfl⟩

/-- Claim C3 counterexample: with the default configured base optimizer
`Adam`, which is not sharpness-aware, the claim prescribes plain-mode
training; but the per-batch events of `fit` are the SAM two-phase sequence
(and in particular are not the plain sequence in either the claim's
zero-first order or the source's forward-first order). -/
theorem plain_mode_not_selected_for_adam :
    fitBatchEvents st0 =
      [TrainEvent.forwardPass, TrainEvent.computeLoss, TrainEvent.backwardPass,
       TrainEvent.firstStep true, TrainEvent.forwardPass, TrainEvent.computeLoss,
       TrainEvent.backwardPass, TrainEvent.secondStep true] ∧
    fitBatchEvents st0 ≠
      [TrainEvent.zeroGradCall, TrainEvent.forwardPass, TrainEvent.computeLoss,
       TrainEvent.backwardPass, TrainEvent.optimizerStep] ∧
    fitBatchEvents st0 ≠
      [TrainEvent.forwardPass, TrainEvent.computeLoss, TrainEvent.zeroGradCall,
       TrainEvent.backwardPass, TrainEvent.optimizerStep] := by
  refine ⟨by decide, by decide, by decide⟩

/-- Claim C3 amended: the trainer does branch per batch on the optimizer's
runtime class name, but `fit` always wraps the configured base optimizer in
`SAM` before training, so the class check always selects the SAM two-phase
loop, for every configured base optimizer; the plain branch (forward, loss,
zero gradients, backward, step) is reachable only for a non-SAM optimizer
object, which `fit` never constructs. -/
theorem fit_always_sam_mode (st : SAMFormerState) (opt : OptimizerId) :
    (fitOptimizer st).className = "SAM" ∧
    fitBatchEvents st =
      [TrainEvent.forwardPass, TrainEvent.computeLoss, TrainEvent.backwardPass,
       TrainEvent.firstStep true, TrainEvent.forwardPass, TrainEvent.computeLoss,
       TrainEvent.backwardPass, TrainEvent.secondStep true] ∧
    (opt.className ≠ "SAM" → processBatchEvents opt =
      [TrainEvent.forwardPass, TrainEvent.computeLoss, TrainEvent.zeroGradCall,
       TrainEvent.backwardPass, TrainEvent.optimizerStep]) := by
  refine ⟨rfl, by simp [fitBatchEvents, fitOptimizer, samWrap, processBatchEvents],
    fun h => by simp [processBatchEvents, h]⟩

theorem fit_always_sam_mode_witness :
    (fitOptimizer st0).className = "SAM" ∧
    fitBatchEvents st0 =
      [TrainEvent.forwardPass, TrainEvent.computeLoss, TrainEvent.backwardPass,
       TrainEvent.firstStep true, TrainEvent.forwardPass, TrainEvent.computeLoss,
       TrainEvent.backwardPass, TrainEvent.secondStep true] ∧
    processBatchEvents { className := "Adam", baseClassName := "Adam" } =
      [TrainEvent.forwardPass, TrainEvent.computeLoss, TrainEvent.zeroGradCall,
       TrainEvent.backwardPass, TrainEvent.optimizerStep] := by
  have h := fit_always_sam_mode st0 { className := "Adam", baseClassName := "Adam" }
  exact ⟨h.1, h.2.1, h.2.2 (by decide)⟩

/-- Claim C4 counterexample: `forecast` on a freshly constructed, never-fit
trainer does not fail with a precondition error: it fails by dereferencing
the absent model (`self.network.eval()` on `None` raises
`AttributeError`). -/
theorem forecast_unfit_attribute_error :
    SAMFormer.forecast st0 valAttention [[[1]]] 256 =
      Except.error (PyError.attributeError
        "NoneType object has no attribute eval") ∧
    returnsPreconditionError
      (SAMFormer.forecast st0 valAttention [[[1]]] 256) = false := ⟨rfl, rfl⟩

/-- Claim C4 amended: `forecast` (and `predict`) called on an instance on
which `fit` has never been called fails by dereferencing the absent model:
the first statement accesses `.eval` on the `None` network and raises
`AttributeError`; there is no explicit precondition check. -/
theorem forecast_unfit_raises_attributeError (device : String)
    (num_epochs batch_size : Nat) (base_opt : String) (lr wd rho : ℚ)
    (ur : Bool) (rs : Option Nat) (attnS : Mat → Mat → Mat → Mat)
    (x : Tensor3) (bsz : Nat) :
    SAMFormer.forecast
        (samformerInit device num_epochs batch_size base_opt lr wd rho ur rs)
        attnS x bsz =
      Except.error (PyError.attributeError
        "NoneType object has no attribute eval") ∧
    SAMFormer.predict
        (samformerInit device num_epochs batch_size base_opt lr wd rho ur rs)
        attnS x bsz =
      Except.error (PyError.attributeError
        "NoneType object has no attribute eval") := ⟨rfl, rfl⟩

/-- Claim C6 counterexample: for data whose dimensions are inconsistent (the
target array has 5 samples against the input's 8, and its width 7 is not a
multiple of the 3 channels), `fit` does not fail fast: its pre-training phase
succeeds and allocates the model parameters, with a silently floored
horizon. -/
theorem fit_no_fail_fast_on_mismatch :
    fitPre st0 { samples := 8, channels := 3, seq_len := 16 }
        { samples := 5, width := 7 } =
      Except.ok { num_channels := 3, seq_len := 16, hid_dim := 16,
                  pred_horizon := 2, use_revin := true } := rfl

/-- Claim C6 amended: the constructor fixes no channel, sequence or horizon
dimensions, so no construction/fit inconsistency can be detected: `fit`
performs no shape validation of any kind and always proceeds to allocate the
model with dimensions read off the data shapes. -/
theorem fit_allocates_without_validation (st : SAMFormerState)
    (xs : XShape) (ys : YShape) :
    fitPre st xs ys = Except.ok
      { num_channels := xs.channels, seq_len := xs.seq_len, hid_dim := 16,
        pred_horizon := ys.width / xs.channels,
        use_revin := st.use_revin } := rfl

/-- Claim C10: for every call to `fit`, the prediction horizon used to
construct the model is `y.shape[1] // x.shape[1]` under integer floor
division; `fit` performs no multiplicity check (the pre-training phase always
succeeds), and a non-divisible target width is silently floored: the
allocated horizon covers strictly fewer target entries than the data
provides. -/
theorem fit_horizon_floor_division (st : SAMFormerState)
    (xs : XShape) (ys : YShape) :
    (fitPre st xs ys).isOk = true ∧
    (fitAllocate st xs ys).pred_horizon = ys.width / xs.channels ∧
    (¬ xs.channels ∣ ys.width →
      xs.channels * (fitAllocate st xs ys).pred_horizon < ys.width) := by
  refine ⟨rfl, rfl, fun h => ?_⟩
  have hle : xs.channels * (ys.width / xs.channels) ≤ ys.width := by
    rw [Nat.mul_comm]
    exact Nat.div_mul_le_self _ _
  exact lt_of_le_of_ne hle (fun heq => h ⟨ys.width / xs.channels, heq.symm⟩)

theorem fit_horizon_floor_division_witness :
    (fitPre st0 { samples := 8, channels := 3, seq_len := 16 }
      { samples := 8, width := 7 }).isOk = true ∧
    (fitAllocate st0 { samples := 8, channels := 3, seq_len := 16 }
      { samples := 8, width := 7 }).pred_horizon = 2 ∧
    3 * (fitAllocate st0 { samples := 8, channels := 3, seq_len := 16 }
      { samples := 8, width := 7 }).pred_horizon < 7 := by
  have h := fit_horizon_floor_division st0
    { samples := 8, channels := 3, seq_len := 16 } { samples := 8, width := 7 }
  exact ⟨h.1, h.2.1, h.2.2 (by decide)⟩

/-- Claim C9: when a random seed is configured, `fit` reseeds every relevant
generator (torch, python, numpy, cuda) from it before any model allocation or
shuffling, so the randomness consumed by a run is independent of the prior
generator states: two runs with the same seed and the same data consume
identical draws and therefore produce identical results. -/
theorem fit_seeded_reproducible (st : SAMFormerState) (s : Nat)
    (h : st.random_state = some s) (r1 r2 : RNGState) :
    fitRandomness st r1 = fitRandomness st r2 ∧
    fitRandomness st r1 = fitRandomness st (seedAll s) := by
  constructor <;> simp [fitRandomness, h]

theorem fit_seeded_reproducible_witness :
    fitRandomness (samformerInit "cpu" 2 256 "Adam" (1/1000) (1/100000) (1/2)
        true (some 42))
      { torchState := 0, pythonState := 1, numpyState := 2, cudaState := 3 } =
      fitRandomness (samformerInit "cpu" 2 256 "Adam" (1/1000) (1/100000) (1/2)
        true (some 42))
      { torchState := 7, pythonState := 8, numpyState := 9, cudaState := 10 } :=
  (fit_seeded_reproducible
    (samformerInit "cpu" 2 256 "Adam" (1/1000) (1/100000) (1/2) true (some 42))
    42 rfl
    { torchState := 0, pythonState := 1, numpyState := 2, cudaState := 3 }
    { torchState := 7, pythonState := 8, numpyState := 9, cudaState := 10 }).1

/-- Claim C5 counterexample: evaluating `forward` on a concrete input with
normalization enabled mutates the module: the normalizer's stored statistics
field changes, so the model state is not left unchanged. -/
theorem forward_mutates_stored_stats :
    (Network.forward net0 valAttention [[[2, 4]]] true).2 ≠ net0 := by
  intro h
  have h2 := congrArg (fun n : Network => n.revin.stats.length) h
  rw [show (Network.forward net0 valAttention [[[2, 4]]] true).2
      = (net0.forwardState valAttention [[[2, 4]]]).2 from rfl,
    forwardState_snd] at h2
  simp [net0] at h2

/-- Claim C5 amended: `forward` has no side effect beyond parameter reads
except that, when normalization is enabled, the normalizer overwrites its
stored per-batch statistics: the module after the call agrees with the module
before on every field other than `revin.stats`, and with normalization
disabled the module is returned entirely unchanged. -/
theorem forward_frame_condition (net : Network)
    (attnS : Mat → Mat → Mat → Mat) (x : Tensor3) (b : Bool) :
    (net.forward attnS x b).2 =
      { net with revin := { net.revin with
          stats := (net.forward attnS x b).2.revin.stats } } ∧
    (net.use_revin = false → (net.forward attnS x b).2 = net) := by
  obtain ⟨rv, ck, cq, cv, lf, ur, tr⟩ := net
  obtain ⟨eps, aw, ab, sts⟩ := rv
  have hfwd : ∀ nn : Network, (nn.forward attnS x b).2 = (nn.forwardState attnS x).2 :=
    fun _ => rfl
  cases ur with
  | false =>
    refine ⟨?_, fun _ => ?_⟩ <;> rw [hfwd, forwardState_snd] <;> simp
  | true =>
    refine ⟨?_, fun h => ?_⟩
    · rw [hfwd, forwardState_snd]
      simp
    · simp at h

theorem forward_frame_condition_witness :
    ((Network.forward net0f valAttention [[[2, 4]]] true).2 =
      { net0f with revin := { net0f.revin with
          stats := (Network.forward net0f valAttention [[[2, 4]]] true).2.revin.stats } }) ∧
    (Network.forward net0f valAttention [[[2, 4]]] true).2 = net0f := by
  have h := forward_frame_condition net0f valAttention [[[2, 4]]] true
  exact ⟨h.1, h.2 rfl⟩

/-- Claim C8: applying normalize and then denormalize to an unperturbed batch
returns the original values exactly — hence within any floating-point
tolerance such as 1e-5 — for every batch size, channel count and sample
length, whenever the configured epsilon is positive and no learned affine
weight is zero (the affine transform is otherwise not invertible). -/
theorem revin_roundtrip (rv : RevINMod) (x : Tensor3)
    (heps : 0 < rv.eps)
    (hw : ∀ g ∈ rv.affineWeight, g ≠ 0)
    (hb : rv.affineBias.length = rv.affineWeight.length)
    (hx : ∀ m ∈ x, ∀ row ∈ m, row.length = rv.affineWeight.length) :
    revinDenormBatch (revinNormBatch rv x).2 (revinNormBatch rv x).1 = x := by
  simp only [revinNormBatch, revinDenormBatch, List.map_map, Function.comp_def]
  rw [zipWith_map_same]
  apply map_id_of_mem
  intro m hm
  have h := roundtrip_sample rv m heps hw hb (hx m hm)
  simpa [revinDenormSample, revinParams] using h

/-- The RevIN module used by the round-trip witness. -/
def rv0 : RevINMod :=
  { eps := 1/100000, affineWeight := [1], affineBias := [0], stats := [] }

theorem revin_roundtrip_witness :
    revinDenormBatch (revinNormBatch rv0 [[[2], [4]]]).2
        (revinNormBatch rv0 [[[2], [4]]]).1 = [[[2], [4]]] :=
  revin_roundtrip rv0 [[[2], [4]]] (by norm_num [rv0])
    (by intro g hg; simp [rv0] at hg; simp [hg]) rfl
    (by intro m hm row hrow; simp [rv0]; simp at hm; subst hm; simp at hrow
        rcases hrow with h | h <;> simp [h])

/-- Claim C2: for every batch of rectangular `(channels, seq_len)` samples
and every shape-correct attention kernel, `forward` computes exactly the
spec's pipeline — normalization through the transpose pattern, query/key/value
projections and attention over the normalized input, the residual add, the
forecast head, denormalization through the same transpose pattern — and the
result has shape `(batch, channels, horizon)`, flattened to
`(batch, channels*horizon)` when `flatten_output` is requested. -/
theorem forward_pipeline_spec (net : Network) (attnS : Mat → Mat → Mat → Mat)
    (x : Tensor3) {n D L H hid : Nat}
    (hD : 0 < D) (hL : 0 < L) (hH : 0 < H)
    (hqw : net.compute_queries.weight.length = hid)
    (hqb : net.compute_queries.bias.length = hid)
    (hkw : net.compute_keys.weight.length = hid)
    (hkb : net.compute_keys.bias.length = hid)
    (hvw : net.compute_values.weight.length = L)
    (hvb : net.compute_values.bias.length = L)
    (hfw : net.linear_forecaster.weight.length = H)
    (hfb : net.linear_forecaster.bias.length = H)
    (haw : net.revin.affineWeight.length = D)
    (hab : net.revin.affineBias.length = D)
    (hattn : ∀ q k v, RectM D hid q → RectM D hid k → RectM D L v →
      RectM D L (attnS q k v))
    (hx : RectT3 n D L x) :
    (∀ b, net.forward attnS x b = forwardSpec net attnS x b) ∧
    (∃ F, net.forward attnS x true = (TOut.flat F, (net.forwardState attnS x).2) ∧
      RectM n (D * H) F) ∧
    (∃ C, net.forward attnS x false = (TOut.cube C, (net.forwardState attnS x).2) ∧
      RectT3 n D H C) := by
  have hfst := forwardState_fst net attnS x
  have hsample : ∀ m ∈ x, RectM D H (net.sampleForward attnS m) := fun m hm =>
    sampleForward_rect net attnS m hD hL hH hqw hqb hkw hkb hvw hvb hfw hfb
      haw hab hattn (hx.2 m hm)
  refine ⟨forward_eq_forwardSpec net attnS x, ?_, ?_⟩
  · refine ⟨((net.forwardState attnS x).1).map List.flatten, rfl, ?_, ?_⟩
    · simp [hfst, hx.1]
    · intro row hrow
      simp only [hfst, List.map_map, Function.comp_def, List.mem_map] at hrow
      obtain ⟨m, hm, rfl⟩ := hrow
      exact flatten_length_rect _ (hsample m hm)
  · refine ⟨(net.forwardState attnS x).1, rfl, ?_, ?_⟩
    · simp [hfst, hx.1]
    · intro m hm
      rw [hfst] at hm
      obtain ⟨m0, hm0, rfl⟩ := List.mem_map.mp hm
      exact hsample m0 hm0

theorem forward_pipeline_spec_witness :
    Network.forward net0 valAttention [[[5]]] true =
      forwardSpec net0 valAttention [[[5]]] true :=
  (@forward_pipeline_spec net0 valAttention [[[5]]] 1 1 1 1 1
    (by decide) (by decide) (by decide) rfl rfl rfl rfl rfl rfl rfl rfl rfl rfl
    (fun q k v _ _ hv => hv)
    (by refine ⟨rfl, ?_⟩
        intro m hm
        simp at hm
        subst hm
        exact ⟨rfl, by intro row hrow; simp at hrow; simp [hrow]⟩)).1 true

/-- The per-sample pipeline never reads the training flag. -/
lemma sampleForward_training (net : Network) (attnS : Mat → Mat → Mat → Mat)
    (t : Bool) (m : Mat) :
    Network.sampleForward { net with training := t } attnS m
      = net.sampleForward attnS m := rfl

/-- The inference loop on a module that differs from `net` only in its stored
RevIN statistics: the concatenated outputs are the per-sample pipeline of
`net` mapped over all samples in their original order, and the final module
again differs from `net` only in its stored statistics. -/
lemma runBatches_spec (attnS : Mat → Mat → Mat → Mat) (net : Network) :
    ∀ (bs : List Tensor3) (s : List (List (ℚ × ℚ))),
      ((runBatches attnS { net with revin := { net.revin with stats := s } }
          bs).1.flatten
        = bs.flatten.map (fun m => (net.sampleForward attnS m).flatten)) ∧
      (∃ s2, (runBatches attnS { net with revin := { net.revin with stats := s } }
          bs).2 = { net with revin := { net.revin with stats := s2 } }) := by
  intro bs
  induction bs with
  | nil => intro s; exact ⟨by simp [runBatches], s, rfl⟩
  | cons b rest ih =>
    intro s
    set netS : Network := { net with revin := { net.revin with stats := s } }
      with hnetS
    have hout : (Network.forward netS attnS b true).1.toFlat
        = b.map (fun m => (net.sampleForward attnS m).flatten) := by
      have h0 : (Network.forward netS attnS b true).1.toFlat
          = ((netS.forwardState attnS b).1).map List.flatten := rfl
      rw [h0, forwardState_fst, List.map_map]
      apply map_congr_fun
      intro m
      simp only [Function.comp_def, hnetS, sampleForward_stats]
    have hnet2 : ∃ s', (Network.forward netS attnS b true).2
        = { net with revin := { net.revin with stats := s' } } := by
      have h2 : (Network.forward netS attnS b true).2
          = (netS.forwardState attnS b).2 := rfl
      rw [h2, forwardState_snd]
      rcases Bool.eq_false_or_eq_true net.use_revin with hr | hr
      · rw [if_pos (by simp [hnetS, hr])]
        exact ⟨_, rfl⟩
      · rw [if_neg (by simp [hnetS, hr])]
        exact ⟨s, rfl⟩
    obtain ⟨s', hs'⟩ := hnet2
    refine ⟨?_, ?_⟩
    · show ((Network.forward netS attnS b true).1.toFlat
          :: (runBatches attnS (Network.forward netS attnS b true).2 rest).1).flatten
        = ((b :: rest).flatten).map (fun m => (net.sampleForward attnS m).flatten)
      rw [List.flatten_cons, hout, hs', (ih s').1, List.flatten_cons,
        List.map_append]
    · show ∃ s2,
        (runBatches attnS (Network.forward netS attnS b true).2 rest).2
          = { net with revin := { net.revin with stats := s2 } }
      rw [hs']
      exact (ih s').2

/-- Claim C7: on a fitted trainer, `forecast` sets the model to evaluation
mode, batches the input without shuffling, disables gradient tracking, and
concatenates the per-batch outputs in the original input order: the result is
exactly the flattened per-sample forward output mapped over the input — in
particular it is independent of the batch size and deterministic, being a
function of the trained module and the input alone — with shape
`(samples, channels * horizon)`; and `predict` returns exactly the same
result as `forecast`. -/
theorem forecast_contract (st : SAMFormerState) (net : Network)
    (attnS : Mat → Mat → Mat → Mat) (x : Tensor3) (batch_size : Nat)
    {n D L H hid : Nat}
    (hnet : st.network = some net)
    (hD : 0 < D) (hL : 0 < L) (hH : 0 < H)
    (hqw : net.compute_queries.weight.length = hid)
    (hqb : net.compute_queries.bias.length = hid)
    (hkw : net.compute_keys.weight.length = hid)
    (hkb : net.compute_keys.bias.length = hid)
    (hvw : net.compute_values.weight.length = L)
    (hvb : net.compute_values.bias.length = L)
    (hfw : net.linear_forecaster.weight.length = H)
    (hfb : net.linear_forecaster.bias.length = H)
    (haw : net.revin.affineWeight.length = D)
    (hab : net.revin.affineBias.length = D)
    (hattn : ∀ q k v, RectM D hid q → RectM D hid k → RectM D L v →
      RectM D L (attnS q k v))
    (hx : RectT3 n D L x) :
    ∃ stF : SAMFormerState,
      SAMFormer.forecast st attnS x batch_size
        = Except.ok (x.map (fun m => (net.sampleForward attnS m).flatten), stF) ∧
      SAMFormer.predict st attnS x batch_size
        = SAMFormer.forecast st attnS x batch_size ∧
      (∀ nf ∈ stF.network, nf.training = false) ∧
      RectM n (D * H) (x.map (fun m => (net.sampleForward attnS m).flatten)) := by
  have e : ({ net with training := false } : Network)
      = { { net with training := false } with revin :=
          { ({ net with training := false } : Network).revin with
            stats := net.revin.stats } } := rfl
  have hrb := runBatches_spec attnS { net with training := false }
    (chunkList batch_size x) net.revin.stats
  obtain ⟨s2, hs2⟩ := hrb.2
  have hout1 : (runBatches attnS { net with training := false }
      (chunkList batch_size x)).1.flatten
      = x.map (fun m => (net.sampleForward attnS m).flatten) := by
    rw [e, hrb.1, chunkList_flatten]
    apply map_congr_fun
    intro m
    rw [sampleForward_training]
  refine ⟨{ st with network := some (runBatches attnS
    { net with training := false } (chunkList batch_size x)).2 }, ?_, rfl, ?_, ?_⟩
  · simp only [SAMFormer.forecast, hnet]
    rw [hout1]
  · intro nf hnf
    simp only [Option.mem_def, Option.some.injEq] at hnf
    have htr : (runBatches attnS { net with training := false }
        (chunkList batch_size x)).2.training = false := by
      rw [e, hs2]
    rw [hnf] at htr
    exact htr
  · have hsample : ∀ m ∈ x, RectM D H (net.sampleForward attnS m) := fun m hm =>
      sampleForward_rect net attnS m hD hL hH hqw hqb hkw hkb hvw hvb hfw hfb
        haw hab hattn (hx.2 m hm)
    refine ⟨by simp [hx.1], ?_⟩
    intro row hrow
    obtain ⟨m, hm, rfl⟩ := List.mem_map.mp hrow
    exact flatten_length_rect _ (hsample m hm)

/-- The fitted trainer used by the forecast witness. -/
def stFit : SAMFormerState := { st0 with network := some net0 }

theorem forecast_contract_witness :
    ∃ stF : SAMFormerState,
      SAMFormer.forecast stFit valAttention [[[5]]] 256
        = Except.ok (([[[5]]] : Tensor3).map
            (fun m => (net0.sampleForward valAttention m).flatten), stF) ∧
      SAMFormer.predict stFit valAttention [[[5]]] 256
        = SAMFormer.forecast stFit valAttention [[[5]]] 256 ∧
      (∀ nf ∈ stF.network, nf.training = false) ∧
      RectM 1 (1 * 1) (([[[5]]] : Tensor3).map
        (fun m => (net0.sampleForward valAttention m).flatten)) :=
  @forecast_contract stFit net0 valAttention [[[5]]] 256 1 1 1 1 1 rfl
    (by decide) (by decide) (by decide) rfl rfl rfl rfl rfl rfl rfl rfl rfl rfl
    (fun q k v _ _ hv => hv)
    (by refine ⟨rfl, ?_⟩
        intro m hm
        simp at hm
        subst hm
        exact ⟨rfl, by intro row hrow; simp at hrow; simp [hrow]⟩)

end Samformer
